import Mathlib

/-!
Verification of the js-sanitizer conditional gating engine (`src/sanitizer.js`,
the current variant of the Babel plugin).  The JavaScript source is shallowly
embedded: each JS helper becomes a total Lean function over `String` /
`List Char`, JS `NaN` for the node major version is modelled as `none : Option
Nat` (with the comparison/`includes` semantics of `NaN` made explicit at every
use site), JS `null` browsers as `none : Option String`, and the Babel AST
shapes the plugin inspects as a small inductive type.
-/

namespace JsSanitizer

/-! ### JS string primitives (kernel-reducible re-implementations) -/

/-- JS `String.prototype.trim`: drop leading and trailing whitespace. -/
def jsTrim (s : String) : String :=
  String.mk (((s.data.dropWhile Char.isWhitespace).reverse.dropWhile Char.isWhitespace).reverse)

/-- JS `String.prototype.toLowerCase` (ASCII case folding, as used here). -/
def jsToLower (s : String) : String :=
  String.mk (s.data.map Char.toLower)

/-- Does `p` occur at the start of `l`? -/
def startsWithL : List Char → List Char → Bool
  | [], _ => true
  | _ :: _, [] => false
  | p :: ps, c :: cs => p == c && startsWithL ps cs

/-- Naive substring search over character lists. -/
def containsSubAux (pat : List Char) : List Char → Bool
  | [] => startsWithL pat []
  | c :: cs => startsWithL pat (c :: cs) || containsSubAux pat cs

/-- JS `String.prototype.includes`: does `s` contain `pat` as a substring? -/
def containsSub (s pat : String) : Bool :=
  containsSubAux pat.data s.data

/-- Split a character list at every occurrence of `sep` (JS `split` keeps
empty segments, and splitting the empty string yields one empty segment). -/
def splitOnCharAux (sep : Char) (cur : List Char) : List Char → List (List Char)
  | [] => [cur.reverse]
  | c :: cs =>
    if c == sep then cur.reverse :: splitOnCharAux sep [] cs
    else splitOnCharAux sep (c :: cur) cs

/-- JS `s.split(sep)` for a single-character separator. -/
def splitOnChar (sep : Char) (s : String) : List String :=
  (splitOnCharAux sep [] s.data).map String.mk

/-- Numeric value of a list of decimal digits (the value `parseInt` gives a
digit run). -/
def valOfDigits (l : List Char) : Nat :=
  l.foldl (fun a c => a * 10 + (c.toNat - 48)) 0

/-- JS `s.match(/\d+/)` followed by `parseInt(m[0], 10)`: the first maximal
run of decimal digits in the list, as a number; `none` when there is none. -/
def firstDigitRunAux : List Char → Option Nat
  | [] => none
  | c :: cs =>
    if c.isDigit then some (valOfDigits (List.takeWhile Char.isDigit (c :: cs)))
    else firstDigitRunAux cs

/-- First digit run of a string (`toMajor` / the version-token rule). -/
def firstDigitRun (s : String) : Option Nat :=
  firstDigitRunAux s.data

/-- JS `String(str || "")`: `null`/`undefined`/`""` all become `""`. -/
def jsStrOrEmpty (o : Option String) : String :=
  o.getD ""

/-! ### Grammar parsers (`parseList`, `parseVersionList`, `parseRange`) -/

/-- `parseList` from `sanitizer.js`: split on `,`, trim and lower-case each
token, drop empty tokens (`filter(Boolean)`). -/
def parseList (o : Option String) : List String :=
  ((splitOnChar ',' (jsStrOrEmpty o)).map (fun s => jsToLower (jsTrim s))).filter
    (fun t => !(t == ""))

/-- `parseVersionList`: map each list token to its first digit run (`NaN`,
i.e. `none`, when the token has no digits) and keep only the finite results
(`filter(Number.isFinite)`). -/
def parseVersionList (o : Option String) : List Nat :=
  ((parseList o).map firstDigitRun).filterMap id

/-- The inclusive range produced by `parseRange`; `min = none` stands for the
JS `-Infinity` default and `max = none` for `+Infinity`. -/
structure RangeB where
  min : Option Nat
  max : Option Nat
deriving DecidableEq

/-- The `key=value` pairs `parseRange` collects: split on `,`, trim, drop
empties, split each pair on `=`, trim and lower-case both sides, and keep the
pair only when both sides are non-empty (a missing `vRaw` is `undefined`,
hence falsy, in JS). -/
def rangePairs (s : String) : List (String × String) :=
  (((splitOnChar ',' s).map jsTrim).filter (fun p => !(p == ""))).filterMap
    (fun pair =>
      match (splitOnChar '=' pair).map (fun x => jsToLower (jsTrim x)) with
      | [] => none
      | [_] => none
      | k :: v :: _ => if !(k == "") && !(v == "") then some (k, v) else none)

/-- JS object assignment `pairs[kRaw] = vRaw`: the last write wins, so look
the key up from the back of the pair list. -/
def lookupLastPair (pairs : List (String × String)) (key : String) : Option String :=
  (pairs.reverse.find? (fun p => p.1 == key)).map (fun p => p.2)

/-- `parseRange` from `sanitizer.js`.  A bound that is absent, or whose value
has no digit run (`toMajor` returns `null`), falls back to the infinity
default, modelled by `none`. -/
def parseRange (o : Option String) : RangeB :=
  RangeB.mk
    ((lookupLastPair (rangePairs (jsStrOrEmpty o)) "min").bind firstDigitRun)
    ((lookupLastPair (rangePairs (jsStrOrEmpty o)) "max").bind firstDigitRun)

/-- `v >= min` where `min = none` is `-Infinity` (and `v` is a real number). -/
def geMin : Option Nat → Nat → Bool
  | none, _ => true
  | some m, v => decide (m ≤ v)

/-- `v <= max` where `max = none` is `+Infinity` (and `v` is a real number). -/
def leMax : Option Nat → Nat → Bool
  | none, _ => true
  | some m, v => decide (v ≤ m)

/-! ### Environment snapshot -/

/-- The environment snapshot the plugin captures once per process.
`nodeMajor = none` models the JS `NaN` produced when the runtime version
string has no digit run; `browser = none` models the JS `null` from
`detectBrowser`. -/
structure Environment where
  platform : String
  nodeMajor : Option Nat
  browser : Option String
deriving DecidableEq

/-- The user-agent branch of `detectBrowser`: substring precedence
Firefox, then Edg, then Chrome, then Safari-without-Chrome/Chromium;
a missing or empty (falsy) user agent yields `null`. -/
def detectBrowserUA : Option String → Option String
  | none => none
  | some u =>
    if u == "" then none
    else if containsSub u "Firefox" then some "firefox"
    else if containsSub u "Edg" then some "edge"
    else if containsSub u "Chrome" then some "chrome"
    else if containsSub u "Safari" && !containsSub u "Chrome" && !containsSub u "Chromium" then
      some "safari"
    else none

/-- `detectBrowser` from `sanitizer.js`.  `envVar` is
`process.env.JS_SANITIZER_BROWSER` (`some ""` = set but empty, which is falsy
in JS and therefore ignored); `ua` is `navigator.userAgent` when a navigator
exists. -/
def detectBrowser (envVar : Option String) (ua : Option String) : Option String :=
  match envVar with
  | some e => if !(e == "") then some (jsToLower (jsTrim e)) else detectBrowserUA ua
  | none => detectBrowserUA ua

/-! ### Tag handlers -/

/-- The eight annotation tags of the catalog. -/
inductive Tag
  | skipOnBrowser
  | enabledOnBrowser
  | skipOnOS
  | enabledOnOS
  | skipOnNodeVersion
  | enabledOnNodeVersion
  | skipForNodeRange
  | enabledForNodeRange
deriving DecidableEq

/-- The `tagHandlers` array order from `sanitizer.js` (the catalog order). -/
def tagHandlers : List Tag :=
  [Tag.skipOnBrowser, Tag.enabledOnBrowser, Tag.skipOnOS, Tag.enabledOnOS,
   Tag.skipOnNodeVersion, Tag.enabledOnNodeVersion, Tag.skipForNodeRange,
   Tag.enabledForNodeRange]

/-- The `tag` field of each handler. -/
def tagName : Tag → String
  | Tag.skipOnBrowser => "skipOnBrowser"
  | Tag.enabledOnBrowser => "enabledOnBrowser"
  | Tag.skipOnOS => "skipOnOS"
  | Tag.enabledOnOS => "enabledOnOS"
  | Tag.skipOnNodeVersion => "skipOnNodeVersion"
  | Tag.enabledOnNodeVersion => "enabledOnNodeVersion"
  | Tag.skipForNodeRange => "skipForNodeRange"
  | Tag.enabledForNodeRange => "enabledForNodeRange"

/-- `String(tag).toLowerCase()`: the key used for the case-insensitive
pragma lookup. -/
def tagKey (t : Tag) : String :=
  jsToLower (tagName t)

/-- The `format` field of each handler: `` `@${tag} ${value}` ``. -/
def formatTag (t : Tag) (value : String) : String :=
  "@" ++ tagName t ++ " " ++ value

/-- The `shouldSkip` closure of each handler, evaluated against the snapshot.
JS `NaN` (here `nodeMajor = none`) semantics are made explicit:
`list.includes(NaN)` is `false` because `parseVersionList` keeps only finite
numbers, and every `<`/`>`/`<=`/`>=` comparison against `NaN` is `false`.
A falsy `currentBrowser` (`null` or `""`) fails the `currentBrowser && ...`
guard of `skipOnBrowser` and satisfies the `!currentBrowser` of
`enabledOnBrowser`. -/
def shouldSkip (env : Environment) : Tag → String → Bool
  | Tag.skipOnBrowser, v =>
    match env.browser with
    | none => false
    | some b => if b == "" then false else (parseList (some v)).contains b
  | Tag.enabledOnBrowser, v =>
    match env.browser with
    | none => true
    | some b => if b == "" then true else !((parseList (some v)).contains b)
  | Tag.skipOnOS, v => (parseList (some v)).contains env.platform
  | Tag.enabledOnOS, v => !((parseList (some v)).contains env.platform)
  | Tag.skipOnNodeVersion, v =>
    match env.nodeMajor with
    | none => false
    | some n => (parseVersionList (some v)).contains n
  | Tag.enabledOnNodeVersion, v =>
    match env.nodeMajor with
    | none => true
    | some n => !((parseVersionList (some v)).contains n)
  | Tag.skipForNodeRange, v =>
    match env.nodeMajor with
    | none => false
    | some n => geMin (parseRange (some v)).min n && leMax (parseRange (some v)).max n
  | Tag.enabledForNodeRange, v =>
    match env.nodeMajor with
    | none => false
    | some n => !(geMin (parseRange (some v)).min n) || !(leMax (parseRange (some v)).max n)

/-! ### Annotation table and the handler loop -/

/-- The lowercased pragma map `pragmasLC`: keys are lower-cased on insertion
and a repeated (lower-cased) key is overwritten by the later entry, so the
lookup takes the last matching entry. -/
def lookupLC (prag : List (String × String)) (key : String) : Option String :=
  (prag.reverse.find? (fun p => jsToLower p.1 == key)).map (fun p => p.2)

/-- Does tag `t` fire on table `prag`: its annotation is present with a
truthy (non-empty) value and its `shouldSkip` returns true. -/
def fires (env : Environment) (prag : List (String × String)) (t : Tag) : Bool :=
  match lookupLC prag (tagKey t) with
  | none => false
  | some v => if v == "" then false else shouldSkip env t v

/-- The `for (const { tag, shouldSkip, format } of tagHandlers)` loop of the
visitor: skip absent (`undefined`) and empty (falsy) values, return the first
handler whose `shouldSkip` is true together with its value. -/
def runHandlers (env : Environment) (prag : List (String × String)) :
    List Tag → Option (Tag × String)
  | [] => none
  | t :: rest =>
    match lookupLC prag (tagKey t) with
    | none => runHandlers env prag rest
    | some v =>
      if v == "" then runHandlers env prag rest
      else if shouldSkip env t v then some (t, v)
      else runHandlers env prag rest

/-! ### Callee shapes, classifier and rewriter -/

/-- The callee shapes the plugin distinguishes: a bare identifier, a member
expression with identifier object and identifier property, one with a
string-literal property, one with any other (e.g. computed) property, and
every other expression shape. -/
inductive Callee
  | ident (name : String)
  | memberI (obj : String) (prop : String)
  | memberS (obj : String) (prop : String)
  | memberOther (obj : String)
  | other
deriving DecidableEq

/-- A call argument, as far as the plugin looks at it: a string literal (for
the log's test name) or anything else. -/
inductive Arg
  | strLit (s : String)
  | otherArg
deriving DecidableEq

/-- A visited call expression: its callee and its argument list. -/
structure CallExpr where
  callee : Callee
  args : List Arg
deriving DecidableEq

/-- The classification result `{ base, mod }` of `analyzeCallee`. -/
structure CalleeInfo where
  base : String
  mod : Option String
deriving DecidableEq

/-- The allowed base names (`TESTS ∪ SUITES`). -/
def baseNames : List String :=
  ["test", "it", "describe"]

/-- `analyzeCallee` from `sanitizer.js`: recognize `name(...)` and
`name.modifier(...)` for the three base names; the modifier is the property
name (identifier or string literal) or `null` for any other property. -/
def analyzeCallee : Callee → Option CalleeInfo
  | Callee.ident n => if baseNames.contains n then some (CalleeInfo.mk n none) else none
  | Callee.memberI obj p =>
    if baseNames.contains obj then some (CalleeInfo.mk obj (some p)) else none
  | Callee.memberS obj p =>
    if baseNames.contains obj then some (CalleeInfo.mk obj (some p)) else none
  | Callee.memberOther obj =>
    if baseNames.contains obj then some (CalleeInfo.mk obj none) else none
  | Callee.other => none

/-- `forceSkipCallee`: any identifier callee or member callee with identifier
object becomes `baseName.skip`; anything else is returned unchanged. -/
def forceSkipCallee (c : Callee) (baseName : String) : Callee :=
  match c with
  | Callee.ident _ => Callee.memberI baseName "skip"
  | Callee.memberI _ _ => Callee.memberI baseName "skip"
  | Callee.memberS _ _ => Callee.memberI baseName "skip"
  | Callee.memberOther _ => Callee.memberI baseName "skip"
  | Callee.other => Callee.other

/-- `args[0]?.type === "StringLiteral" ? args[0].value : "(unnamed)"`. -/
def testNameOf : List Arg → String
  | Arg.strLit s :: _ => s
  | _ => "(unnamed)"

/-- The `[SKIPPING]` audit record for one disabling decision. -/
def skipMsg (base testName filename : String) (t : Tag) (value : String) : String :=
  "[SKIPPING] " ++ base ++ "(\"" ++ testName ++ "\") in " ++ filename ++
    " due to " ++ formatTag t value

/-- The outcome of `getDocblockPragmas` for one call: no usable comment, a
caught parse error, or a parsed annotation table (raw key/value pairs, keys
lower-cased at lookup time). -/
inductive ResolveOutcome
  | noComments
  | parseError
  | ok (table : List (String × String))
deriving DecidableEq

/-- `getDocblockPragmas` returns `null` both when there is no block comment
and when `extract`/`parse` threw (the local `try`/`catch`). -/
def resolveTable : ResolveOutcome → Option (List (String × String))
  | ResolveOutcome.noComments => none
  | ResolveOutcome.parseError => none
  | ResolveOutcome.ok table => some table

/-- The `CallExpression` visitor body: classify the callee, honour the
existing `.skip` modifier, resolve the annotation table, run the handler
loop, and on the first firing handler rewrite the callee and emit one log
record.  Returns the (possibly rewritten) call and the emitted log lines. -/
def visitCall (env : Environment) (filename : String)
    (resolved : Option (List (String × String))) (c : CallExpr) :
    CallExpr × List String :=
  match analyzeCallee c.callee with
  | none => (c, [])
  | some info =>
    if info.mod == some "skip" then (c, [])
    else
      match resolved with
      | none => (c, [])
      | some prag =>
        match runHandlers env prag tagHandlers with
        | none => (c, [])
        | some (t, v) =>
          (CallExpr.mk (forceSkipCallee c.callee info.base) c.args,
           [skipMsg info.base (testNameOf c.args) filename t v])

/-- Transforming one file: visit every call in order (each paired with the
outcome of its comment resolution), collecting the mutated calls and the
concatenated log. -/
def transformFile (env : Environment) (filename : String) :
    List (CallExpr × ResolveOutcome) → List CallExpr × List String
  | [] => ([], [])
  | (c, r) :: rest =>
    let step := visitCall env filename (resolveTable r) c
    let restRes := transformFile env filename rest
    (step.1 :: restRes.1, step.2 ++ restRes.2)

/-! ### Helper lemmas -/

theorem lookupLC_nil (key : String) : lookupLC [] key = none := rfl

theorem runHandlers_nil_table (env : Environment) :
    ∀ l : List Tag, runHandlers env [] l = none
  | [] => rfl
  | _ :: rest => runHandlers_nil_table env rest

theorem fires_eq_false_of_lookup_none (env : Environment) (prag : List (String × String))
    (t : Tag) (h : lookupLC prag (tagKey t) = none) : fires env prag t = false := by
  simp [fires, h]

theorem runHandlers_eq_find (env : Environment) (prag : List (String × String)) :
    ∀ l : List Tag,
      runHandlers env prag l
        = (l.find? (fires env prag)).bind
            (fun t => (lookupLC prag (tagKey t)).map (fun v => (t, v)))
  | [] => rfl
  | t :: rest => by
    cases h : lookupLC prag (tagKey t) with
    | none =>
      have hf : fires env prag t = false := by simp [fires, h]
      rw [List.find?_cons_of_neg _ (by simp [hf]), ← runHandlers_eq_find env prag rest]
      simp only [runHandlers, h]
    | some v =>
      by_cases hv : v == ""
      · have hf : fires env prag t = false := by simp [fires, h, hv]
        rw [List.find?_cons_of_neg _ (by simp [hf]), ← runHandlers_eq_find env prag rest]
        simp only [runHandlers, h, if_pos hv]
      · by_cases hs : shouldSkip env t v
        · have hf : fires env prag t = true := by simp [fires, h, hv, hs]
          rw [List.find?_cons_of_pos _ hf]
          simp only [runHandlers, h, if_neg hv, if_pos hs, Option.bind_some]
          simp [h]
        · have hf : fires env prag t = false := by simp [fires, h, hv, hs]
          rw [List.find?_cons_of_neg _ (by simp [hf]), ← runHandlers_eq_find env prag rest]
          simp only [runHandlers, h, if_neg hv, if_neg hs]

theorem visitCall_resolved_none (env : Environment) (filename : String) (c : CallExpr) :
    visitCall env filename none c = (c, []) := by
  cases hc : analyzeCallee c.callee with
  | none => simp [visitCall, hc]
  | some info =>
    by_cases h : info.mod = some "skip" <;> simp [visitCall, hc, h]

theorem visitCall_empty_table (env : Environment) (filename : String) (c : CallExpr) :
    visitCall env filename (some []) c = (c, []) := by
  cases hc : analyzeCallee c.callee with
  | none => simp [visitCall, hc]
  | some info =>
    by_cases h : info.mod = some "skip" <;>
      simp [visitCall, hc, h, runHandlers_nil_table env tagHandlers]

theorem visitCall_mod_skip (env : Environment) (filename : String)
    (r : Option (List (String × String))) (c : CallExpr) (info : CalleeInfo)
    (h : analyzeCallee c.callee = some info) (hm : info.mod = some "skip") :
    visitCall env filename r c = (c, []) := by
  simp [visitCall, h, hm]

theorem visitCall_fired (env : Environment) (filename : String)
    (prag : List (String × String)) (c : CallExpr) (info : CalleeInfo) (t : Tag) (v : String)
    (h : analyzeCallee c.callee = some info) (hm : ¬(info.mod = some "skip"))
    (hr : runHandlers env prag tagHandlers = some (t, v)) :
    visitCall env filename (some prag) c
      = (CallExpr.mk (forceSkipCallee c.callee info.base) c.args,
         [skipMsg info.base (testNameOf c.args) filename t v]) := by
  simp [visitCall, h, hm, hr]

theorem analyzeCallee_force (cc : Callee) (info : CalleeInfo)
    (h : analyzeCallee cc = some info) (b : String) :
    forceSkipCallee cc b = Callee.memberI b "skip" := by
  cases cc <;> simp_all [analyzeCallee, forceSkipCallee]

theorem analyzeCallee_base_mem (cc : Callee) (info : CalleeInfo)
    (h : analyzeCallee cc = some info) : baseNames.contains info.base = true := by
  cases cc <;> simp only [analyzeCallee] at h
  case other => exact absurd h (by simp)
  all_goals
    split at h
    · cases h; assumption
    · exact absurd h (by simp)

theorem visitCall_log_shape (env : Environment) (filename : String)
    (r : Option (List (String × String))) (c : CallExpr)
    (h : (visitCall env filename r c).2 ≠ []) :
    ∃ info prag t v,
      analyzeCallee c.callee = some info ∧ ¬(info.mod = some "skip") ∧
      r = some prag ∧ runHandlers env prag tagHandlers = some (t, v) ∧
      visitCall env filename r c
        = (CallExpr.mk (Callee.memberI info.base "skip") c.args,
           [skipMsg info.base (testNameOf c.args) filename t v]) := by
  cases hc : analyzeCallee c.callee with
  | none =>
    exact absurd (show visitCall env filename r c = (c, []) by simp [visitCall, hc])
      (by intro he; simp [he] at h)
  | some info =>
    by_cases hm : info.mod = some "skip"
    · exact absurd (visitCall_mod_skip env filename r c info hc hm) (by intro he; simp [he] at h)
    · cases r with
      | none => exact absurd (visitCall_resolved_none env filename c) (by intro he; simp [he] at h)
      | some prag =>
        cases hr : runHandlers env prag tagHandlers with
        | none =>
          have hnone : visitCall env filename (some prag) c = (c, []) := by
            simp [visitCall, hc, hm, hr]
          exact absurd hnone (by intro he; simp [he] at h)
        | some tv =>
          refine ⟨info, prag, tv.1, tv.2, rfl, hm, rfl, by rw [hr], ?_⟩
          rw [visitCall_fired env filename prag c info tv.1 tv.2 hc hm (by rw [hr]),
            analyzeCallee_force c.callee info hc]

theorem contains_filter_empty_false (l : List String) :
    (l.filter (fun t => !(t == ""))).contains "" = false := by
  have hmem : "" ∉ l.filter (fun t => !(t == "")) := by
    intro hm
    have hp := List.of_mem_filter hm
    simp at hp
  simp [List.contains, List.elem_eq_mem, hmem]

theorem parseList_contains_empty_false (o : Option String) :
    (parseList o).contains "" = false :=
  contains_filter_empty_false _

/-! ### Claim theorems -/

/-- C1: the handler loop consults the catalog in its fixed order and returns
the first tag whose annotation is present with a usable (non-empty) value and
whose `shouldSkip` evaluates to true — `List.find?` semantics over
`tagHandlers`, so no later handler is consulted once one fires; and for a
gate-able, not-yet-skipped call the firing handler produces exactly one
rewrite and one log record. -/
theorem catalog_first_match_wins :
    (∀ (env : Environment) (prag : List (String × String)),
      runHandlers env prag tagHandlers
        = (tagHandlers.find? (fires env prag)).bind
            (fun t => (lookupLC prag (tagKey t)).map (fun v => (t, v))))
    ∧ (∀ (env : Environment) (filename : String) (prag : List (String × String))
        (c : CallExpr) (info : CalleeInfo) (t : Tag) (v : String),
        analyzeCallee c.callee = some info →
        ¬(info.mod = some "skip") →
        runHandlers env prag tagHandlers = some (t, v) →
        visitCall env filename (some prag) c
          = (CallExpr.mk (forceSkipCallee c.callee info.base) c.args,
             [skipMsg info.base (testNameOf c.args) filename t v])) :=
  ⟨fun env prag => runHandlers_eq_find env prag tagHandlers,
   fun env filename prag c info t v h hm hr =>
     visitCall_fired env filename prag c info t v h hm hr⟩

/-- C1 witness: a call annotated with both a matching `skipOnOS` and a
matching `enabledOnNodeVersion` is rewritten by `skipOnOS`, the earlier
catalog entry, with a single log record. -/
theorem catalog_first_match_wins_witness :
    visitCall (Environment.mk "linux" (some 20) none) "spec.js"
        (some [("skipOnOS", "linux"), ("enabledOnNodeVersion", "99")])
        (CallExpr.mk (Callee.ident "it") [Arg.strLit "x"])
      = (CallExpr.mk (Callee.memberI "it" "skip") [Arg.strLit "x"],
         [skipMsg "it" "x" "spec.js" Tag.skipOnOS "linux"]) :=
  catalog_first_match_wins.2 (Environment.mk "linux" (some 20) none) "spec.js"
    [("skipOnOS", "linux"), ("enabledOnNodeVersion", "99")]
    (CallExpr.mk (Callee.ident "it") [Arg.strLit "x"])
    (CalleeInfo.mk "it" none) Tag.skipOnOS "linux" rfl (by simp) rfl

/-- C2 counterexample: with an unparsable node version (`NaN`, modelled as
`nodeMajor = none`), `enabledOnNodeVersion` evaluates to `true` (it skips),
because `parseVersionList` keeps only finite numbers, `includes(NaN)` on
such a list is `false`, and the handler negates it — contradicting the claim
that every version-based predicate evaluates to false under `NaN`. -/
theorem nan_enabledOnNodeVersion_skips :
    shouldSkip (Environment.mk "linux" none none) Tag.enabledOnNodeVersion "18" = true := rfl

/-- C2 amended: when the node major version is `NaN`, the predicates
`skipOnNodeVersion`, `skipForNodeRange` and `enabledForNodeRange` evaluate to
false for every annotation value, while `enabledOnNodeVersion` evaluates to
true (always skips). -/
theorem nan_version_predicates (p : String) (b : Option String) (v : String) :
    shouldSkip (Environment.mk p none b) Tag.skipOnNodeVersion v = false
    ∧ shouldSkip (Environment.mk p none b) Tag.skipForNodeRange v = false
    ∧ shouldSkip (Environment.mk p none b) Tag.enabledForNodeRange v = false
    ∧ shouldSkip (Environment.mk p none b) Tag.enabledOnNodeVersion v = true :=
  ⟨rfl, rfl, rfl, rfl⟩

/-- C2 amended, instantiated: at platform `linux`, unknown browser and `NaN`
node version, `skipOnNodeVersion 18` does not skip. -/
theorem nan_version_predicates_witness :
    shouldSkip (Environment.mk "linux" none none) Tag.skipOnNodeVersion "18" = false :=
  (nan_version_predicates "linux" none "18").1

/-- C3: a call whose callee already carries the `skip` modifier is returned
unchanged with no log record; and whenever a visit did rewrite a call
(emitted a log line), visiting the rewritten call again — under any
environment, filename and resolved table — changes nothing and emits
nothing, so the transform is idempotent on its own output. -/
theorem skip_modifier_idempotent :
    (∀ (env : Environment) (filename : String) (r : Option (List (String × String)))
        (c : CallExpr) (info : CalleeInfo),
        analyzeCallee c.callee = some info → info.mod = some "skip" →
        visitCall env filename r c = (c, []))
    ∧ (∀ (env : Environment) (filename : String) (r : Option (List (String × String)))
        (env2 : Environment) (f2 : String) (r2 : Option (List (String × String)))
        (c : CallExpr),
        (visitCall env filename r c).2 ≠ [] →
        visitCall env2 f2 r2 (visitCall env filename r c).1
          = ((visitCall env filename r c).1, [])) := by
  constructor
  · exact fun env filename r c info h hm => visitCall_mod_skip env filename r c info h hm
  · intro env filename r env2 f2 r2 c h
    obtain ⟨info, prag, t, v, hc, hm, hr, hrun, heq⟩ :=
      visitCall_log_shape env filename r c h
    have hbase := analyzeCallee_base_mem c.callee info hc
    have hmem : info.base ∈ baseNames := by simpa using hbase
    have hana : analyzeCallee (Callee.memberI info.base "skip")
        = some (CalleeInfo.mk info.base (some "skip")) := by
      simp [analyzeCallee, hmem]
    rw [heq]
    exact visitCall_mod_skip env2 f2 r2 _ _ hana rfl

/-- C3 witness: `it.skip(...)` is untouched, and re-visiting the output of a
visit that rewrote `it(...)` to `it.skip(...)` is a no-op. -/
theorem skip_modifier_idempotent_witness :
    visitCall (Environment.mk "linux" (some 20) none) "f" (some [("skipOnOS", "linux")])
        (CallExpr.mk (Callee.memberI "it" "skip") [])
      = (CallExpr.mk (Callee.memberI "it" "skip") [], [])
    ∧ visitCall (Environment.mk "linux" (some 20) none) "f" (some [("skipOnOS", "linux")])
        ((visitCall (Environment.mk "linux" (some 20) none) "f" (some [("skipOnOS", "linux")])
          (CallExpr.mk (Callee.ident "it") [])).1)
      = ((visitCall (Environment.mk "linux" (some 20) none) "f" (some [("skipOnOS", "linux")])
          (CallExpr.mk (Callee.ident "it") [])).1, []) :=
  ⟨skip_modifier_idempotent.1 (Environment.mk "linux" (some 20) none) "f"
      (some [("skipOnOS", "linux")]) (CallExpr.mk (Callee.memberI "it" "skip") [])
      (CalleeInfo.mk "it" (some "skip")) rfl rfl,
   skip_modifier_idempotent.2 (Environment.mk "linux" (some 20) none) "f"
      (some [("skipOnOS", "linux")]) (Environment.mk "linux" (some 20) none) "f"
      (some [("skipOnOS", "linux")]) (CallExpr.mk (Callee.ident "it") []) (by decide)⟩

/-- C4: `skipForNodeRange min=16,max=18` skips exactly at majors 16–18
(inclusive on both ends), and `enabledForNodeRange min=14` with no `max`
skips exactly at majors below 14, for every platform and browser. -/
theorem range_inclusive_bounds (p : String) (b : Option String) (v : Nat) :
    shouldSkip (Environment.mk p (some v) b) Tag.skipForNodeRange "min=16,max=18"
      = decide (16 ≤ v ∧ v ≤ 18)
    ∧ shouldSkip (Environment.mk p (some v) b) Tag.enabledForNodeRange "min=14"
      = decide (v < 14) := by
  constructor
  · have h1 : parseRange (some "min=16,max=18") = RangeB.mk (some 16) (some 18) := rfl
    show (geMin (parseRange (some "min=16,max=18")).min v
        && leMax (parseRange (some "min=16,max=18")).max v) = decide (16 ≤ v ∧ v ≤ 18)
    rw [h1]
    show (decide (16 ≤ v) && decide (v ≤ 18)) = decide (16 ≤ v ∧ v ≤ 18)
    by_cases h16 : 16 ≤ v <;> by_cases h18 : v ≤ 18 <;> simp [h16, h18]
  · have h2 : parseRange (some "min=14") = RangeB.mk (some 14) none := rfl
    show (!(geMin (parseRange (some "min=14")).min v)
        || !(leMax (parseRange (some "min=14")).max v)) = decide (v < 14)
    rw [h2]
    show (!(decide (14 ≤ v)) || !true) = decide (v < 14)
    by_cases h14 : 14 ≤ v
    · simp [h14, Nat.not_lt.mpr h14]
    · simp [h14, Nat.lt_of_not_le h14]

/-- C4 instantiated: major 17 is inside `min=16,max=18` (skip) and major 13
is below `min=14` (skip under `enabledForNodeRange`). -/
theorem range_inclusive_bounds_witness :
    shouldSkip (Environment.mk "linux" (some 17) none) Tag.skipForNodeRange "min=16,max=18"
      = true
    ∧ shouldSkip (Environment.mk "linux" (some 13) none) Tag.enabledForNodeRange "min=14"
      = true :=
  ⟨(range_inclusive_bounds "linux" none 17).1, (range_inclusive_bounds "linux" none 13).2⟩

/-- C5: `enabledOnBrowser` skips whenever the snapshot has no detected
browser (for every list value), skips when the detected browser is not in
the parsed list, and does not skip exactly when the detected browser is a
member of the parsed list. -/
theorem enabledOnBrowser_unknown_skips :
    (∀ (p : String) (nv : Option Nat) (v : String),
        shouldSkip (Environment.mk p nv none) Tag.enabledOnBrowser v = true)
    ∧ (∀ (p : String) (nv : Option Nat) (b : String) (v : String),
        (parseList (some v)).contains b = false →
        shouldSkip (Environment.mk p nv (some b)) Tag.enabledOnBrowser v = true)
    ∧ (∀ (p : String) (nv : Option Nat) (b : String) (v : String),
        (parseList (some v)).contains b = true →
        shouldSkip (Environment.mk p nv (some b)) Tag.enabledOnBrowser v = false) := by
  refine ⟨fun p nv v => rfl, fun p nv b v h => ?_, fun p nv b v h => ?_⟩
  · show (if b == "" then true else !((parseList (some v)).contains b)) = true
    rw [h]
    by_cases hb : b == "" <;> simp [hb]
  · have hb : ¬(b = "") := by
      intro hbe
      rw [hbe, parseList_contains_empty_false (some v)] at h
      exact Bool.noConfusion h
    show (if b == "" then true else !((parseList (some v)).contains b)) = false
    rw [h, if_neg (by simpa using hb)]
    rfl

/-- C5 witness: with no detectable browser `enabledOnBrowser firefox` skips;
with browser `chrome` it skips; with browser `firefox` it does not. -/
theorem enabledOnBrowser_unknown_skips_witness :
    shouldSkip (Environment.mk "linux" (some 20) none) Tag.enabledOnBrowser "Firefox" = true
    ∧ shouldSkip (Environment.mk "linux" (some 20) (some "chrome"))
        Tag.enabledOnBrowser "Firefox" = true
    ∧ shouldSkip (Environment.mk "linux" (some 20) (some "firefox"))
        Tag.enabledOnBrowser "Firefox" = false :=
  ⟨enabledOnBrowser_unknown_skips.1 "linux" (some 20) "Firefox",
   enabledOnBrowser_unknown_skips.2.1 "linux" (some 20) "chrome" "Firefox" (by decide),
   enabledOnBrowser_unknown_skips.2.2 "linux" (some 20) "firefox" "Firefox" (by decide)⟩

/-- C6: browser detection order — a set, non-empty override variable wins
unconditionally with its trimmed lower-cased value (even an unsupported name
like `Foo`, which then makes `skipOnBrowser foo` fire); otherwise a present
user agent is classified by substring precedence Firefox, then Edg, then
Chrome, then Safari-without-Chrome/Chromium; with no user agent (or one
matching nothing) the result is `null`; and the function is total. -/
theorem detectBrowser_resolution_order :
    (∀ (e : String) (ua : Option String), ¬(e = "") →
        detectBrowser (some e) ua = some (jsToLower (jsTrim e)))
    ∧ detectBrowser (some "Foo") none = some "foo"
    ∧ shouldSkip (Environment.mk "linux" (some 20) (detectBrowser (some "Foo") none))
        Tag.skipOnBrowser "foo" = true
    ∧ (∀ u : String, ¬(u = "") → containsSub u "Firefox" = true →
        detectBrowser none (some u) = some "firefox")
    ∧ (∀ u : String, ¬(u = "") → containsSub u "Firefox" = false →
        containsSub u "Edg" = true → detectBrowser none (some u) = some "edge")
    ∧ (∀ u : String, ¬(u = "") → containsSub u "Firefox" = false →
        containsSub u "Edg" = false → containsSub u "Chrome" = true →
        detectBrowser none (some u) = some "chrome")
    ∧ (∀ u : String, ¬(u = "") → containsSub u "Firefox" = false →
        containsSub u "Edg" = false → containsSub u "Chrome" = false →
        containsSub u "Safari" = true → containsSub u "Chromium" = false →
        detectBrowser none (some u) = some "safari")
    ∧ (∀ u : String, ¬(u = "") → containsSub u "Firefox" = false →
        containsSub u "Edg" = false → containsSub u "Chrome" = false →
        (containsSub u "Safari" = false ∨ containsSub u "Chromium" = true) →
        detectBrowser none (some u) = none)
    ∧ detectBrowser none none = none := by
  refine ⟨fun e ua he => ?_, rfl, rfl, fun u hu hf => ?_, fun u hu hf he => ?_,
    fun u hu hf he hc => ?_, fun u hu hf he hc hs hcm => ?_, fun u hu hf he hc hsc => ?_, rfl⟩
  · simp [detectBrowser, he]
  · simp [detectBrowser, detectBrowserUA, hu, hf]
  · simp [detectBrowser, detectBrowserUA, hu, hf, he]
  · simp [detectBrowser, detectBrowserUA, hu, hf, he, hc]
  · simp [detectBrowser, detectBrowserUA, hu, hf, he, hc, hs, hcm]
  · rcases hsc with hs | hcm
    · simp [detectBrowser, detectBrowserUA, hu, hf, he, hc, hs]
    · simp [detectBrowser, detectBrowserUA, hu, hf, he, hc, hcm]

/-- C6 witness: each resolution branch exercised on a concrete input. -/
theorem detectBrowser_resolution_order_witness :
    detectBrowser (some " Foo ") (some "Chrome/1") = some "foo"
    ∧ detectBrowser none (some "x Firefox y") = some "firefox"
    ∧ detectBrowser none (some "Edg/120") = some "edge"
    ∧ detectBrowser none (some "Chrome/99 Safari") = some "chrome"
    ∧ detectBrowser none (some "Mac Safari 17") = some "safari"
    ∧ detectBrowser none (some "Safari Chromium x") = none :=
  ⟨detectBrowser_resolution_order.1 " Foo " (some "Chrome/1") (by decide),
   detectBrowser_resolution_order.2.2.2.1 "x Firefox y" (by decide) (by decide),
   detectBrowser_resolution_order.2.2.2.2.1 "Edg/120" (by decide) (by decide) (by decide),
   detectBrowser_resolution_order.2.2.2.2.2.1 "Chrome/99 Safari" (by decide) (by decide)
     (by decide) (by decide),
   detectBrowser_resolution_order.2.2.2.2.2.2.1 "Mac Safari 17" (by decide) (by decide)
     (by decide) (by decide) (by decide) (by decide),
   detectBrowser_resolution_order.2.2.2.2.2.2.2.1 "Safari Chromium x" (by decide) (by decide)
     (by decide) (by decide) (Or.inr (by decide))⟩

/-- C7: the rewriter turns every recognized callee shape into
`baseName.skip` regardless of the original modifier (`name.only(...)`
becomes `name.skip(...)`), the visitor never changes the argument list, and
whenever a visit fires (emits a log record) the resulting callee is exactly
`base.skip` for the classified base. -/
theorem rewrite_forces_skip_preserves_args :
    (∀ n m : String, forceSkipCallee (Callee.memberI n m) n = Callee.memberI n "skip")
    ∧ (∀ n m : String, forceSkipCallee (Callee.memberS n m) n = Callee.memberI n "skip")
    ∧ (∀ n : String, forceSkipCallee (Callee.memberOther n) n = Callee.memberI n "skip")
    ∧ (∀ n : String, forceSkipCallee (Callee.ident n) n = Callee.memberI n "skip")
    ∧ (∀ (env : Environment) (filename : String) (r : Option (List (String × String)))
        (c : CallExpr), ((visitCall env filename r c).1).args = c.args)
    ∧ (∀ (env : Environment) (filename : String) (r : Option (List (String × String)))
        (c : CallExpr) (info : CalleeInfo),
        analyzeCallee c.callee = some info →
        (visitCall env filename r c).2 ≠ [] →
        ((visitCall env filename r c).1).callee = Callee.memberI info.base "skip") := by
  refine ⟨fun n m => rfl, fun n m => rfl, fun n => rfl, fun n => rfl, ?_, ?_⟩
  · intro env filename r c
    cases hc : analyzeCallee c.callee with
    | none => simp [visitCall, hc]
    | some info =>
      by_cases hm : info.mod = some "skip"
      · simp [visitCall, hc, hm]
      · cases r with
        | none => simp [visitCall, hc, hm]
        | some prag =>
          cases hr : runHandlers env prag tagHandlers with
          | none => simp [visitCall, hc, hm, hr]
          | some tv => simp [visitCall, hc, hm, hr]
  · intro env filename r c info hinfo h
    obtain ⟨info2, prag, t, v, hc2, hm2, hr2, hrun2, heq⟩ :=
      visitCall_log_shape env filename r c h
    have : info2 = info := by
      rw [hinfo] at hc2
      exact (Option.some_inj.mp hc2).symm
    rw [heq]
    rw [this]

/-- C7 witness: `it.only("x", ...)` targeted by a firing `skipOnOS` becomes
`it.skip` with the argument list untouched. -/
theorem rewrite_forces_skip_preserves_args_witness :
    ((visitCall (Environment.mk "linux" (some 20) none) "f" (some [("skipOnOS", "linux")])
        (CallExpr.mk (Callee.memberI "it" "only") [Arg.strLit "x", Arg.otherArg])).1).callee
      = Callee.memberI "it" "skip" :=
  rewrite_forces_skip_preserves_args.2.2.2.2.2 (Environment.mk "linux" (some 20) none) "f"
    (some [("skipOnOS", "linux")])
    (CallExpr.mk (Callee.memberI "it" "only") [Arg.strLit "x", Arg.otherArg])
    (CalleeInfo.mk "it" (some "only")) rfl (by decide)

/-- C8: the grammar parsers are total functions (never throw, by
construction); `parseVersionList` maps every kept token to the integer value
of the token's first digit run and drops tokens without digits ("18", "v20",
"20.11.1" give 18, 20, 20); a range with a missing `min` defaults to
negative infinity (every major is `>=` it) and a missing `max` to positive
infinity (every major is `<=` it); malformed fragments are dropped rather
than raising. -/
theorem grammar_parsers_total :
    (∀ o : Option String, parseVersionList o = (parseList o).filterMap firstDigitRun)
    ∧ parseVersionList (some "18, v20, 20.11.1") = [18, 20, 20]
    ∧ parseVersionList (some "alpha, , beta-x") = []
    ∧ parseVersionList none = []
    ∧ parseList none = []
    ∧ parseRange (some "min=16,max=18") = RangeB.mk (some 16) (some 18)
    ∧ parseRange (some "max=18") = RangeB.mk none (some 18)
    ∧ parseRange (some "min=16") = RangeB.mk (some 16) none
    ∧ parseRange none = RangeB.mk none none
    ∧ parseRange (some ",,min=xyz,===,max=v19.2") = RangeB.mk none (some 19)
    ∧ (∀ v : Nat, geMin (parseRange (some "max=18")).min v = true)
    ∧ (∀ v : Nat, leMax (parseRange (some "min=16")).max v = true) := by
  refine ⟨fun o => ?_, rfl, rfl, rfl, rfl, rfl, rfl, rfl, rfl, rfl,
    fun v => rfl, fun v => rfl⟩
  show ((parseList o).map firstDigitRun).filterMap id = (parseList o).filterMap firstDigitRun
  generalize parseList o = l
  induction l with
  | nil => rfl
  | cons a l ih =>
    cases h : firstDigitRun a with
    | none =>
      simp only [List.map_cons, List.filterMap_cons, id, h]
      exact ih
    | some n =>
      simp only [List.map_cons, List.filterMap_cons, id, h]
      rw [ih]

/-- C9: a comment whose structured parse failed (the caught exception path,
`getDocblockPragmas` returning `null`) leaves its call unchanged and
contributes no log line while the remaining calls are still processed; a
comment that parsed to an empty annotation table likewise causes zero
mutation and zero log output; and the transform maps every input call to
exactly one output call (no call is dropped, no exception escapes — the
embedding is a total function). -/
theorem comment_error_contained :
    (∀ (env : Environment) (filename : String) (c : CallExpr)
        (rest : List (CallExpr × ResolveOutcome)),
        transformFile env filename ((c, ResolveOutcome.parseError) :: rest)
          = (c :: (transformFile env filename rest).1, (transformFile env filename rest).2))
    ∧ (∀ (env : Environment) (filename : String) (c : CallExpr)
        (rest : List (CallExpr × ResolveOutcome)),
        transformFile env filename ((c, ResolveOutcome.ok []) :: rest)
          = (c :: (transformFile env filename rest).1, (transformFile env filename rest).2))
    ∧ (∀ (env : Environment) (filename : String) (items : List (CallExpr × ResolveOutcome)),
        ((transformFile env filename items).1).length = items.length) := by
  refine ⟨fun env filename c rest => ?_, fun env filename c rest => ?_,
    fun env filename items => ?_⟩
  · show ((visitCall env filename none c).1 :: (transformFile env filename rest).1,
        (visitCall env filename none c).2 ++ (transformFile env filename rest).2) = _
    rw [visitCall_resolved_none env filename c]
    rfl
  · show ((visitCall env filename (some []) c).1 :: (transformFile env filename rest).1,
        (visitCall env filename (some []) c).2 ++ (transformFile env filename rest).2) = _
    rw [visitCall_empty_table env filename c]
    rfl
  · induction items with
    | nil => rfl
    | cons p rest ih =>
      show ((visitCall env filename (resolveTable p.2) p.1).1
          :: (transformFile env filename rest).1).length = rest.length + 1
      rw [List.length_cons, ih]

/-- C10: an annotation whose resolved value is the empty string is falsy in
JS, so the handler loop treats it exactly like an absent annotation — its
tag can never fire; in particular `enabledOnOS` and `enabledOnBrowser`
written with no value cause no rewrite and no log, even in environments
where their handlers would skip (empty parsed list) had they been
consulted. -/
theorem empty_value_ignored :
    (∀ (env : Environment) (prag : List (String × String)) (t : Tag),
        lookupLC prag (tagKey t) = some "" → fires env prag t = false)
    ∧ visitCall (Environment.mk "linux" (some 20) none) "f" (some [("enabledOnOS", "")])
        (CallExpr.mk (Callee.ident "it") [Arg.strLit "x"])
      = (CallExpr.mk (Callee.ident "it") [Arg.strLit "x"], [])
    ∧ visitCall (Environment.mk "linux" (some 20) none) "f" (some [("enabledOnBrowser", "")])
        (CallExpr.mk (Callee.ident "it") [Arg.strLit "x"])
      = (CallExpr.mk (Callee.ident "it") [Arg.strLit "x"], []) := by
  refine ⟨fun env prag t h => ?_, rfl, rfl⟩
  simp [fires, h]

/-- C10 witness: a pragma table carrying `enabledOnOS` (any key casing) with
the empty value never fires. -/
theorem empty_value_ignored_witness :
    fires (Environment.mk "linux" (some 20) none) [("EnabledOnOS", "")] Tag.enabledOnOS
      = false :=
  empty_value_ignored.1 (Environment.mk "linux" (some 20) none) [("EnabledOnOS", "")]
    Tag.enabledOnOS rfl

end JsSanitizer
